import Mathlib

/-!
Shallow embedding of the cw20-ics20 IBC transfer contract
(contracts/cw20-ics20/src/ibc.rs): the escrow ledger, the packet state
machine (receive / ack / timeout), the acknowledgement codec, and the
channel handshake, together with proofs of the spec's testable properties.
-/

namespace Cw20Ics20

/-- 128-bit unsigned modulus: `Uint128` arithmetic in the source is checked
(subtraction returns an error on underflow, addition panics on overflow with
the workspace's overflow checks), so values are modelled as `Nat` with
explicit bound checks rather than wrapping. -/
def UINT128_MOD : Nat := 2 ^ 128

/-- Checked `Uint128` subtraction (`impl Sub for Uint128` returns a
`StdResult`): `none` models the underflow error. -/
def subU128 (a b : Nat) : Option Nat := if b ≤ a then some (a - b) else none

/-- Checked `Uint128` addition: `none` models the overflow panic. -/
def addU128 (a b : Nat) : Option Nat := if a + b < UINT128_MOD then some (a + b) else none

/-- The subset of `cosmwasm_std::StdError` reachable from `ibc.rs`:
`ParseErr` from `from_binary`, `Underflow` from checked `Uint128`
subtraction. -/
inductive StdError where
  | parseErr (msg : String)
  | underflow (minuend subtrahend : Nat)
deriving DecidableEq, Repr

/-- Modelled from the spec: the contract's `ContractError` (its `error.rs` is
not in the sample). Variants are exactly those constructed in `ibc.rs`: a
wrapped `StdError` (the `?` conversion), `InsufficientFunds`,
`InvalidIbcVersion` (the spec's version-mismatch error) and
`OnlyOrderedChannel` (the spec's ordering error). `Panicked` is not a source
variant: it models a Rust panic (checked-arithmetic overflow,
`unimplemented!()`), which aborts the transaction exactly like an error
return. -/
inductive ContractError where
  | Std (e : StdError)
  | InsufficientFunds
  | InvalidIbcVersion (version : String)
  | OnlyOrderedChannel
  | Panicked (msg : String)
deriving DecidableEq, Repr

/-- `Ics20Packet`: the wire payload of a transfer; `amount` is a `u64` on the
wire. -/
structure Ics20Packet where
  denom : String
  amount : Nat
  sender : String
  receiver : String
deriving DecidableEq, Repr

structure IbcEndpoint where
  port_id : String
  channel_id : String
deriving DecidableEq, Repr

inductive IbcOrder where
  | Unordered
  | Ordered
deriving DecidableEq, Repr

structure IbcChannel where
  endpoint : IbcEndpoint
  counterparty_endpoint : IbcEndpoint
  order : IbcOrder
  version : String
  counterparty_version : Option String
  connection_id : String
deriving DecidableEq, Repr

/-- `IbcPacket`: the transport-level packet. Its `data : Binary` is consumed
only through `from_binary::<Ics20Packet>`, which the spec treats as an
abstract codec; we carry the decode result (`none` models a payload that
fails to decode). -/
structure IbcPacket where
  data : Option Ics20Packet
  src : IbcEndpoint
  dest : IbcEndpoint
  sequence : Nat
deriving DecidableEq, Repr

/-- `IbcAcknowledgement`: the acknowledgement bytes (JSON text, decoded by
the concrete acknowledgement codec below) plus the original outbound
packet. -/
structure IbcAcknowledgement where
  acknowledgement : String
  original_packet : IbcPacket
deriving DecidableEq, Repr

/-- Modelled from the spec: `Amount` (its `amount.rs` is not in the sample) —
a sum type of a native coin (denomination + amount) or a cw20 token balance
(contract address + amount). -/
inductive Amount where
  | Native (denom : String) (amount : Nat)
  | Cw20 (address : String) (amount : Nat)
deriving DecidableEq, Repr

/-- Modelled from the spec: `Amount::from_parts` builds the variant from the
denomination tag — a tag carrying the cw20 address marker selects the
contract-token variant, anything else is a native coin. -/
def Amount.from_parts (denom : String) (amount : Nat) : Amount :=
  if denom.startsWith "cw20:" then .Cw20 (denom.drop 5) amount else .Native denom amount

inductive Cw20HandleMsg where
  | Transfer (recipient : String) (amount : Nat)
deriving DecidableEq, Repr

/-- The value-transfer instructions the contract emits: a `BankMsg::Send` or a
cw20 `Transfer` wrapped in `WasmMsg::Execute`. -/
inductive CosmosMsg where
  | BankSend (to_address : String) (amount : List (String × Nat))
  | WasmExecute (contract_addr : String) (msg : Cw20HandleMsg) (send : List (String × Nat))
deriving DecidableEq, Repr

/-- `send_amount`: map an `Amount` and a recipient to the value-transfer
message. -/
def send_amount (amount : Amount) (recipient : String) : CosmosMsg :=
  match amount with
  | .Native denom amt => .BankSend recipient [(denom, amt)]
  | .Cw20 address amt => .WasmExecute address (.Transfer recipient amt) []

/-- Modelled from the spec: the escrow-ledger entry (`ChannelState` in
`state.rs`, not in the sample): `outstanding` escrow balance and the
monotonic `total_sent` counter, both `Uint128`, both zero in the `Default`
used when an entry is first created. -/
structure ChannelState where
  outstanding : Nat
  total_sent : Nat
deriving DecidableEq, Repr

/-- `ChannelInfo`: the channel-registry record saved at connect time. -/
structure ChannelInfo where
  id : String
  counterparty_endpoint : IbcEndpoint
  connection_id : String
deriving DecidableEq, Repr

/-- The contract's persistent store: the channel registry `CHANNEL_INFO`
(keyed by channel id) and the escrow ledger `CHANNEL_STATE` (keyed by
the pair of channel id and denomination). -/
structure ContractState where
  channel_info : String → Option ChannelInfo
  channel_state : String × String → Option ChannelState

/-- `Map::save` on the registry: point update at the record's channel id,
every other key (and the ledger) untouched. -/
def setChannelInfo (st : ContractState) (info : ChannelInfo) : ContractState :=
  { st with channel_info := fun k => if k = info.id then some info else st.channel_info k }

/-- `Map::save` on the ledger: point update at one key, every other key (and
the channel registry) untouched. -/
def setChannelState (st : ContractState) (key : String × String) (v : ChannelState) :
    ContractState :=
  { st with channel_state := fun k => if k = key then some v else st.channel_state k }

/-- `Map::update` on the ledger: read the entry, apply the closure, persist
the result on success; on error nothing is written (and the whole call
aborts, so the transaction leaves the store untouched). -/
def updateChannelState (st : ContractState) (key : String × String)
    (f : Option ChannelState → Except ContractError ChannelState) :
    Except ContractError ContractState :=
  match f (st.channel_state key) with
  | .error e => .error e
  | .ok v => .ok (setChannelState st key v)

/-- The JSON double-quote character. -/
def quC : Char := Char.ofNat 34

/-- The backslash character. -/
def bsC : Char := Char.ofNat 92

/-- The opening-brace character. -/
def lbC : Char := Char.ofNat 123

/-- The closing-brace character. -/
def rbC : Char := Char.ofNat 125

/-- The standard base64 alphabet, as serde serializes `Binary`. -/
def b64Alphabet : List Char :=
  "ABCDEFGHIJKLMNOPQRSTUVWXYZabcdefghijklmnopqrstuvwxyz0123456789+/".toList

def b64Char (n : Nat) : Char := b64Alphabet.getD n 'A'

def b64Val (c : Char) : Option Nat := b64Alphabet.findIdx? (· = c)

def padC : Char := '='

/-- Base64-encode a byte list (3 bytes to 4 sextets, with padding). -/
def b64encode : List Nat → List Char
  | a :: b :: c :: rest =>
    b64Char (a / 4) :: b64Char (a % 4 * 16 + b / 16) :: b64Char (b % 16 * 4 + c / 64) ::
      b64Char (c % 64) :: b64encode rest
  | [a, b] => [b64Char (a / 4), b64Char (a % 4 * 16 + b / 16), b64Char (b % 16 * 4), padC]
  | [a] => [b64Char (a / 4), b64Char (a % 4 * 16), padC, padC]
  | [] => []

/-- Base64-decode. -/
def b64decode : List Char → Option (List Nat)
  | [] => some []
  | w :: x :: y :: z :: rest => do
    let a ← b64Val w
    let b ← b64Val x
    if y = padC then
      if z = padC ∧ rest = [] then some [a * 4 + b / 16] else none
    else do
      let c ← b64Val y
      if z = padC then
        if rest = [] then some [a * 4 + b / 16, b % 16 * 16 + c / 4] else none
      else do
        let d ← b64Val z
        let tail ← b64decode rest
        some ((a * 4 + b / 16) :: (b % 16 * 16 + c / 4) :: (c % 4 * 64 + d) :: tail)
  | _ => none

def hexDigit (n : Nat) : Char := "0123456789abcdef".toList.getD n '0'

def hexVal (c : Char) : Option Nat := "0123456789abcdef".toList.findIdx? (· = c)

/-- serde_json string escaping for one character: the quote, the backslash,
and the control characters (with the short forms for backspace, tab,
newline, form feed and carriage return). -/
def escChar (c : Char) : List Char :=
  if c = quC then [bsC, quC]
  else if c = bsC then [bsC, bsC]
  else if c.toNat = 8 then [bsC, 'b']
  else if c.toNat = 9 then [bsC, 't']
  else if c.toNat = 10 then [bsC, 'n']
  else if c.toNat = 12 then [bsC, 'f']
  else if c.toNat = 13 then [bsC, 'r']
  else if c.toNat < 32 then [bsC, 'u', '0', '0', hexDigit (c.toNat / 16), hexDigit (c.toNat % 16)]
  else [c]

def escapeChars (s : List Char) : List Char := s.flatMap escChar

/-- Parse a JSON string body: the characters up to the closing quote, undoing
the escapes `escChar` produces. Returns the decoded characters and the rest
of the input after the closing quote. -/
def parseStringBody : List Char → Option (List Char × List Char)
  | [] => none
  | c :: rest =>
    if c = quC then some ([], rest)
    else if c = bsC then
      match rest with
      | [] => none
      | q :: rest2 =>
        if q = quC then (parseStringBody rest2).map (fun p => (quC :: p.1, p.2))
        else if q = bsC then (parseStringBody rest2).map (fun p => (bsC :: p.1, p.2))
        else if q = 'b' then (parseStringBody rest2).map (fun p => (Char.ofNat 8 :: p.1, p.2))
        else if q = 't' then (parseStringBody rest2).map (fun p => (Char.ofNat 9 :: p.1, p.2))
        else if q = 'n' then (parseStringBody rest2).map (fun p => (Char.ofNat 10 :: p.1, p.2))
        else if q = 'f' then (parseStringBody rest2).map (fun p => (Char.ofNat 12 :: p.1, p.2))
        else if q = 'r' then (parseStringBody rest2).map (fun p => (Char.ofNat 13 :: p.1, p.2))
        else if q = 'u' then
          match rest2 with
          | z1 :: z2 :: h1 :: h2 :: rest3 =>
            if z1 = '0' then
              if z2 = '0' then
                match hexVal h1, hexVal h2 with
                | some a, some b =>
                  (parseStringBody rest3).map (fun p => (Char.ofNat (a * 16 + b) :: p.1, p.2))
                | _, _ => none
              else none
            else none
          | _ => none
        else none
    else (parseStringBody rest).map (fun p => (c :: p.1, p.2))

/-- Read raw characters up to the closing quote (used for the base64 payload,
which contains no escapes). -/
def rawStringBody : List Char → Option (List Char × List Char)
  | [] => none
  | c :: rest =>
    if c = quC then some ([], rest)
    else (rawStringBody rest).map (fun p => (c :: p.1, p.2))

/-- Drop an expected leading segment, returning the remainder. -/
def dropLead : List Char → List Char → Option (List Char)
  | [], cs => some cs
  | _ :: _, [] => none
  | p :: ps, c :: cs => if c = p then dropLead ps cs else none

/-- `Ics20Ack`: the generic ICS acknowledgement envelope — `Result` with
opaque bytes on success, `Error` with a message on failure. -/
inductive Ics20Ack where
  | Result (bytes : List Nat)
  | Error (msg : String)
deriving DecidableEq, Repr

/-- serde JSON encoding of `Ics20Ack`: an externally tagged, snake_case
object — a single field "result" holding the base64 bytes, or a single
field "error" holding the escaped message string. -/
def encodeAckChars : Ics20Ack → List Char
  | .Result bytes =>
    lbC :: quC :: "result".toList ++ quC :: ':' :: quC :: b64encode bytes ++ [quC, rbC]
  | .Error msg =>
    lbC :: quC :: "error".toList ++ quC :: ':' :: quC :: escapeChars msg.data ++ [quC, rbC]

def encodeAck (a : Ics20Ack) : String := ⟨encodeAckChars a⟩

/-- Decode the canonical JSON encoding of `Ics20Ack`; any other shape is
rejected as malformed. -/
def decodeAckChars (cs : List Char) : Option Ics20Ack :=
  match dropLead (lbC :: quC :: "result".toList ++ [quC, ':', quC]) cs with
  | some rest =>
    match rawStringBody rest with
    | some (body, after) =>
      if after = [rbC] then (b64decode body).map .Result else none
    | none => none
  | none =>
    match dropLead (lbC :: quC :: "error".toList ++ [quC, ':', quC]) cs with
    | some rest =>
      match parseStringBody rest with
      | some (body, after) => if after = [rbC] then some (.Error ⟨body⟩) else none
      | none => none
    | none => none

def decodeAck (s : String) : Option Ics20Ack := decodeAckChars s.data

/-- `ack_success`: the canonical success acknowledgement — `Result` wrapping
the single byte 0x31 (the digit one), serialized. -/
def ack_success : String := encodeAck (.Result [49])

structure Attribute where
  key : String
  value : String
deriving DecidableEq, Repr

structure IbcReceiveResponse where
  acknowledgement : String
  messages : List CosmosMsg
  attributes : List Attribute
deriving DecidableEq, Repr

structure IbcBasicResponse where
  messages : List CosmosMsg
  attributes : List Attribute
deriving DecidableEq, Repr

/-- `IbcBasicResponse::default()`. -/
def IbcBasicResponse.default : IbcBasicResponse := ⟨[], []⟩

def ICS20_VERSION : String := "ics20-1"

def ICS20_ORDERING : IbcOrder := .Unordered

/-- The counterparty-version arm of `enforce_order_and_version` (checked only
when a counterparty version is present). -/
def checkCounterpartyVersion : Option String → Except ContractError Unit
  | some version =>
    if version ≠ ICS20_VERSION then .error (.InvalidIbcVersion version) else .ok ()
  | none => .ok ()

/-- `enforce_order_and_version`: our version, then the counterparty's (when
known), then the channel ordering. -/
def enforce_order_and_version (channel : IbcChannel) : Except ContractError Unit := do
  if channel.version ≠ ICS20_VERSION then
    throw (ContractError.InvalidIbcVersion channel.version)
  checkCounterpartyVersion channel.counterparty_version
  if channel.order ≠ ICS20_ORDERING then
    throw ContractError.OnlyOrderedChannel

/-- `ibc_channel_open`: enforces ordering and versioning constraints. -/
def ibc_channel_open (_st : ContractState) (channel : IbcChannel) :
    Except ContractError Unit :=
  enforce_order_and_version channel

/-- `ibc_channel_connect`: re-validate, then record the channel in
`CHANNEL_INFO` under the local channel id. -/
def ibc_channel_connect (st : ContractState) (channel : IbcChannel) :
    Except ContractError (ContractState × IbcBasicResponse) := do
  enforce_order_and_version channel
  let info : ChannelInfo :=
    { id := channel.endpoint.channel_id
      counterparty_endpoint := channel.counterparty_endpoint
      connection_id := channel.connection_id }
  let st' := setChannelInfo st info
  pure (st', IbcBasicResponse.default)

/-- `ibc_channel_close`: the body is `unimplemented!()`, so every invocation
panics; there is no code path that returns escrowed funds. -/
def ibc_channel_close (_st : ContractState) (_channel : IbcChannel) :
    Except ContractError (ContractState × IbcBasicResponse) :=
  .error (.Panicked "not implemented")

/-- `ibc_packet_receive`: decode the payload, debit the escrow ledger for the
packet's (source channel, denom) — erroring when there is no entry or the
outstanding balance is insufficient — then emit the transfer to the packet's
receiver and the success acknowledgement. -/
def ibc_packet_receive (st : ContractState) (packet : IbcPacket) :
    Except ContractError (ContractState × IbcReceiveResponse) := do
  let msg : Ics20Packet ←
    match packet.data with
    | some m => pure m
    | none => throw (ContractError.Std (.parseErr "invalid Ics20Packet"))
  let channel := packet.src.channel_id
  let denom := msg.denom
  let amount := msg.amount
  let st' ← updateChannelState st (channel, denom) (fun orig => do
    let cur ←
      match orig with
      | some c => pure c
      | none => throw ContractError.InsufficientFunds
    match subU128 cur.outstanding amount with
    | some v => pure { cur with outstanding := v }
    | none => throw (ContractError.Std (.underflow cur.outstanding amount)))
  let to_send := Amount.from_parts denom amount
  let m := send_amount to_send msg.receiver
  pure (st', { acknowledgement := ack_success
               messages := [m]
               attributes := [⟨"action", "receive"⟩] })

/-- `on_packet_success`: credit `outstanding` and `total_sent` for the
packet's (origin channel, denom), creating the entry with zero fields when
absent. An overflowing increment panics in the source, modelled as the
aborting `Panicked` error. -/
def on_packet_success (st : ContractState) (packet : IbcPacket) :
    Except ContractError (ContractState × IbcBasicResponse) := do
  let msg : Ics20Packet ←
    match packet.data with
    | some m => pure m
    | none => throw (ContractError.Std (.parseErr "invalid Ics20Packet"))
  let channel := packet.src.channel_id
  let denom := msg.denom
  let amount := msg.amount
  let st' ← updateChannelState st (channel, denom) (fun orig => do
    let state := orig.getD ⟨0, 0⟩
    match addU128 state.outstanding amount, addU128 state.total_sent amount with
    | some o, some t => pure { outstanding := o, total_sent := t }
    | _, _ => throw (ContractError.Panicked "u128 overflow"))
  pure (st', IbcBasicResponse.default)

/-- `on_packet_failure`: return the funds to the original sender, attaching
the failure reason as an attribute; the ledger is not touched. -/
def on_packet_failure (st : ContractState) (packet : IbcPacket) (err : String) :
    Except ContractError (ContractState × IbcBasicResponse) := do
  let msg : Ics20Packet ←
    match packet.data with
    | some m => pure m
    | none => throw (ContractError.Std (.parseErr "invalid Ics20Packet"))
  let amount := Amount.from_parts msg.denom msg.amount
  let m := send_amount amount msg.sender
  pure (st, { messages := [m], attributes := [⟨"ibc_error", err⟩] })

/-- `ibc_packet_ack`: decode the acknowledgement envelope; the `Result`
variant is the success path, the `Error` variant the failure path. -/
def ibc_packet_ack (st : ContractState) (ack : IbcAcknowledgement) :
    Except ContractError (ContractState × IbcBasicResponse) :=
  match decodeAck ack.acknowledgement with
  | none => .error (.Std (.parseErr "invalid Ics20Ack"))
  | some (.Result _) => on_packet_success st ack.original_packet
  | some (.Error err) => on_packet_failure st ack.original_packet err

/-- `ibc_packet_timeout`: identical to the failure arm of `ibc_packet_ack`,
with the literal reason "timeout". -/
def ibc_packet_timeout (st : ContractState) (packet : IbcPacket) :
    Except ContractError (ContractState × IbcBasicResponse) :=
  on_packet_failure st packet "timeout"

/-- A packet-lifecycle event delivered by the transport. -/
inductive Event where
  | receive (p : IbcPacket)
  | ack (a : IbcAcknowledgement)
  | timeout (p : IbcPacket)

/-- One event applied to the store. A failing call writes nothing (the host
commits transactionally, all-or-nothing), so the state is unchanged on
error. -/
def step (st : ContractState) : Event → ContractState
  | .receive p =>
    match ibc_packet_receive st p with
    | .ok (st', _) => st'
    | .error _ => st
  | .ack a =>
    match ibc_packet_ack st a with
    | .ok (st', _) => st'
    | .error _ => st
  | .timeout p =>
    match ibc_packet_timeout st p with
    | .ok (st', _) => st'
    | .error _ => st

def runEvents (st : ContractState) (evs : List Event) : ContractState :=
  evs.foldl step st

/-- The outstanding balance recorded for a key (zero when no entry). -/
def outstandingOf (st : ContractState) (key : String × String) : Nat :=
  ((st.channel_state key).getD ⟨0, 0⟩).outstanding

/-- The total-sent counter recorded for a key (zero when no entry). -/
def totalSentOf (st : ContractState) (key : String × String) : Nat :=
  ((st.channel_state key).getD ⟨0, 0⟩).total_sent

/-- The value carried by a value-transfer message (sum of the coin amounts of
a bank send, or the cw20 transfer amount). -/
def msgAmount : CosmosMsg → Nat
  | .BankSend _ amt => (amt.map Prod.snd).sum
  | .WasmExecute _ (.Transfer _ a) _ => a

/-- The recipient of a value-transfer message. -/
def msgRecipient : CosmosMsg → String
  | .BankSend to_address _ => to_address
  | .WasmExecute _ (.Transfer recipient _) _ => recipient

/-- A sample store (the spec's end-to-end scenario: 150 atom outstanding on
channel-3), used to exercise the theorems on concrete inputs. -/
def sampleState : ContractState :=
  { channel_info := fun _ => none
    channel_state := fun k => if k = ("channel-3", "atom") then some ⟨150, 0⟩ else none }

/-- A store with no ledger entries at all. -/
def emptyState : ContractState :=
  { channel_info := fun _ => none, channel_state := fun _ => none }

/-- The spec's sample packet: 100 atom from S to R over channel-3. -/
def samplePacket : IbcPacket :=
  { data := some { denom := "atom", amount := 100, sender := "S", receiver := "R" }
    src := { port_id := "transfer", channel_id := "channel-3" }
    dest := { port_id := "transfer", channel_id := "channel-7" }
    sequence := 1 }

/-- A packet asking for more (200 atom) than the 150 outstanding. -/
def bigPacket : IbcPacket :=
  { samplePacket with data := some { denom := "atom", amount := 200, sender := "S", receiver := "R" } }

/-- A packet whose payload does not decode as an `Ics20Packet`. -/
def badPacket : IbcPacket := { samplePacket with data := none }

/-- A channel proposal that passes every handshake check. -/
def sampleChannel : IbcChannel :=
  { endpoint := { port_id := "wasm-port", channel_id := "channel-3" }
    counterparty_endpoint := { port_id := "transfer", channel_id := "channel-9" }
    order := .Unordered
    version := "ics20-1"
    counterparty_version := some "ics20-1"
    connection_id := "connection-2" }

/-- An acknowledgement carrying the canonical success marker, for the sample
packet. -/
def sampleAck : IbcAcknowledgement :=
  { acknowledgement := ack_success, original_packet := samplePacket }

/-- A channel proposal with a wrong version string. -/
def badVersionChannel : IbcChannel := { sampleChannel with version := "ics20-2" }

/-- A channel proposal with the right version but ordered delivery. -/
def orderedChannel : IbcChannel := { sampleChannel with order := .Ordered }

/-- The store after connecting `sampleChannel`. -/
def connectedState : ContractState :=
  setChannelInfo sampleState ⟨"channel-3", ⟨"transfer", "channel-9"⟩, "connection-2"⟩

/-! ## Acknowledgement-codec lemmas -/

theorem b64Table : ∀ n : Fin 64, b64Val (b64Char n.val) = some n.val ∧
    b64Char n.val ≠ quC ∧ b64Char n.val ≠ padC := by decide

theorem b64Val_b64Char (n : Nat) (h : n < 64) : b64Val (b64Char n) = some n :=
  (b64Table ⟨n, h⟩).1

theorem b64Char_ne_padC (n : Nat) (h : n < 64) : b64Char n ≠ padC :=
  (b64Table ⟨n, h⟩).2.2

theorem b64Char_ne_quC (n : Nat) : b64Char n ≠ quC := by
  by_cases h : n < 64
  · exact (b64Table ⟨n, h⟩).2.1
  · have hlen : b64Alphabet.length = 64 := by decide
    have hA : b64Char n = 'A' := by
      unfold b64Char
      rw [List.getD_eq_default]
      omega
    rw [hA]
    decide

theorem b64_round_trip (l : List Nat) (h : ∀ x ∈ l, x < 256) :
    b64decode (b64encode l) = some l := by
  induction l using b64encode.induct with
  | case1 a b c rest ih =>
    have ha : a < 256 := h a (by simp)
    have hb : b < 256 := h b (by simp)
    have hc : c < 256 := h c (by simp)
    have ih' := ih (fun x hx => h x (by simp [hx]))
    have h1 := b64Val_b64Char (a / 4) (by omega)
    have h2 := b64Val_b64Char (a % 4 * 16 + b / 16) (by omega)
    have h3 := b64Val_b64Char (b % 16 * 4 + c / 64) (by omega)
    have h4 := b64Val_b64Char (c % 64) (by omega)
    have n3 := b64Char_ne_padC (b % 16 * 4 + c / 64) (by omega)
    have n4 := b64Char_ne_padC (c % 64) (by omega)
    simp [b64encode, b64decode, h1, h2, h3, h4, n3, n4, ih']
    refine ⟨by omega, by omega, by omega⟩
  | case2 a b =>
    have ha : a < 256 := h a (by simp)
    have hb : b < 256 := h b (by simp)
    have h1 := b64Val_b64Char (a / 4) (by omega)
    have h2 := b64Val_b64Char (a % 4 * 16 + b / 16) (by omega)
    have h3 := b64Val_b64Char (b % 16 * 4) (by omega)
    have n3 := b64Char_ne_padC (b % 16 * 4) (by omega)
    simp [b64encode, b64decode, h1, h2, h3, n3]
    constructor <;> omega
  | case3 a =>
    have ha : a < 256 := h a (by simp)
    have h1 := b64Val_b64Char (a / 4) (by omega)
    have h2 := b64Val_b64Char (a % 4 * 16) (by omega)
    simp [b64encode, b64decode, h1, h2]
    omega
  | case4 => rfl

theorem hexTable : ∀ n : Fin 16, hexVal (hexDigit n.val) = some n.val := by decide

theorem hexVal_hexDigit (n : Nat) (h : n < 16) : hexVal (hexDigit n) = some n :=
  hexTable ⟨n, h⟩

theorem parse_quote (r : List Char) : parseStringBody (quC :: r) = some ([], r) := by
  conv_lhs => unfold parseStringBody
  simp

theorem parse_esc_quote (r : List Char) :
    parseStringBody (bsC :: quC :: r) =
      (parseStringBody r).map (fun p => (quC :: p.1, p.2)) := by
  have d1 : bsC ≠ quC := by decide
  conv_lhs => unfold parseStringBody
  simp [d1]

theorem parse_esc_backslash (r : List Char) :
    parseStringBody (bsC :: bsC :: r) =
      (parseStringBody r).map (fun p => (bsC :: p.1, p.2)) := by
  have d1 : bsC ≠ quC := by decide
  conv_lhs => unfold parseStringBody
  simp [d1]

theorem parse_esc_b (r : List Char) :
    parseStringBody (bsC :: 'b' :: r) =
      (parseStringBody r).map (fun p => (Char.ofNat 8 :: p.1, p.2)) := by
  have d1 : bsC ≠ quC := by decide
  have d2 : ('b' : Char) ≠ quC := by decide
  have d3 : ('b' : Char) ≠ bsC := by decide
  conv_lhs => unfold parseStringBody
  simp [d1, d2, d3]

theorem parse_esc_t (r : List Char) :
    parseStringBody (bsC :: 't' :: r) =
      (parseStringBody r).map (fun p => (Char.ofNat 9 :: p.1, p.2)) := by
  have d1 : bsC ≠ quC := by decide
  have d2 : ('t' : Char) ≠ quC := by decide
  have d3 : ('t' : Char) ≠ bsC := by decide
  conv_lhs => unfold parseStringBody
  simp [d1, d2, d3]

theorem parse_esc_n (r : List Char) :
    parseStringBody (bsC :: 'n' :: r) =
      (parseStringBody r).map (fun p => (Char.ofNat 10 :: p.1, p.2)) := by
  have d1 : bsC ≠ quC := by decide
  have d2 : ('n' : Char) ≠ quC := by decide
  have d3 : ('n' : Char) ≠ bsC := by decide
  conv_lhs => unfold parseStringBody
  simp [d1, d2, d3]

theorem parse_esc_f (r : List Char) :
    parseStringBody (bsC :: 'f' :: r) =
      (parseStringBody r).map (fun p => (Char.ofNat 12 :: p.1, p.2)) := by
  have d1 : bsC ≠ quC := by decide
  have d2 : ('f' : Char) ≠ quC := by decide
  have d3 : ('f' : Char) ≠ bsC := by decide
  conv_lhs => unfold parseStringBody
  simp [d1, d2, d3]

theorem parse_esc_r (r : List Char) :
    parseStringBody (bsC :: 'r' :: r) =
      (parseStringBody r).map (fun p => (Char.ofNat 13 :: p.1, p.2)) := by
  have d1 : bsC ≠ quC := by decide
  have d2 : ('r' : Char) ≠ quC := by decide
  have d3 : ('r' : Char) ≠ bsC := by decide
  conv_lhs => unfold parseStringBody
  simp [d1, d2, d3]

theorem parse_esc_u (r : List Char) (h1 h2 : Char) (a b : Nat)
    (hh1 : hexVal h1 = some a) (hh2 : hexVal h2 = some b) :
    parseStringBody (bsC :: 'u' :: '0' :: '0' :: h1 :: h2 :: r) =
      (parseStringBody r).map (fun p => (Char.ofNat (a * 16 + b) :: p.1, p.2)) := by
  have d1 : bsC ≠ quC := by decide
  have d2 : ('u' : Char) ≠ quC := by decide
  have d3 : ('u' : Char) ≠ bsC := by decide
  conv_lhs => unfold parseStringBody
  simp [d1, d2, d3, hh1, hh2]

theorem parse_plain (r : List Char) (c : Char) (h1 : c ≠ quC) (h2 : c ≠ bsC) :
    parseStringBody (c :: r) = (parseStringBody r).map (fun p => (c :: p.1, p.2)) := by
  conv_lhs => unfold parseStringBody
  simp [h1, h2]

theorem parseStringBody_escape (s tail : List Char) :
    parseStringBody (escapeChars s ++ quC :: tail) = some (s, tail) := by
  induction s with
  | nil => simpa [escapeChars] using parse_quote tail
  | cons c s ih =>
    have hesc : escapeChars (c :: s) = escChar c ++ escapeChars s := by simp [escapeChars]
    rw [hesc, List.append_assoc]
    unfold escChar
    split_ifs with hq hb h8 h9 h10 h12 h13 hctl
    · subst hq; simp [parse_esc_quote, ih]
    · subst hb; simp [parse_esc_backslash, ih]
    · have hc : Char.ofNat 8 = c := h8 ▸ Char.ofNat_toNat c
      simp [parse_esc_b, ih, hc]
      exact hc
    · have hc : Char.ofNat 9 = c := h9 ▸ Char.ofNat_toNat c
      simp [parse_esc_t, ih, hc]
      exact hc
    · have hc : Char.ofNat 10 = c := h10 ▸ Char.ofNat_toNat c
      simp [parse_esc_n, ih, hc]
      exact hc
    · have hc : Char.ofNat 12 = c := h12 ▸ Char.ofNat_toNat c
      simp [parse_esc_f, ih, hc]
      exact hc
    · have hc : Char.ofNat 13 = c := h13 ▸ Char.ofNat_toNat c
      simp [parse_esc_r, ih, hc]
      exact hc
    · have hhi := hexVal_hexDigit (c.toNat / 16) (by omega)
      have hlo := hexVal_hexDigit (c.toNat % 16) (by omega)
      have hc : Char.ofNat (c.toNat / 16 * 16 + c.toNat % 16) = c := by
        have harith : c.toNat / 16 * 16 + c.toNat % 16 = c.toNat := by omega
        rw [harith, Char.ofNat_toNat]
      simp [parse_esc_u _ _ _ _ _ hhi hlo, ih, hc]
    · simp [parse_plain _ _ hq hb, ih]

theorem dropLead_append (p rest : List Char) : dropLead p (p ++ rest) = some rest := by
  induction p with
  | nil => rfl
  | cons c p ih => simp [dropLead, ih]

theorem rawStringBody_append (l tail : List Char) (h : ∀ c ∈ l, c ≠ quC) :
    rawStringBody (l ++ quC :: tail) = some (l, tail) := by
  induction l with
  | nil => simp [rawStringBody]
  | cons c l ih =>
    have hc : c ≠ quC := h c (by simp)
    simp [rawStringBody, hc, ih (fun x hx => h x (by simp [hx]))]

theorem b64encode_ne_quC (l : List Nat) : ∀ c ∈ b64encode l, c ≠ quC := by
  induction l using b64encode.induct with
  | case1 a b c rest ih =>
    intro x hx
    simp [b64encode] at hx
    rcases hx with h | h | h | h | h
    all_goals first
      | (subst h; exact b64Char_ne_quC _)
      | (exact ih x h)
  | case2 a b =>
    intro x hx
    simp [b64encode] at hx
    rcases hx with h | h | h | h
    all_goals first
      | (subst h; exact b64Char_ne_quC _)
      | (subst h; decide)
  | case3 a =>
    intro x hx
    simp [b64encode] at hx
    rcases hx with h | h | h
    all_goals first
      | (subst h; exact b64Char_ne_quC _)
      | (subst h; decide)
  | case4 => intro x hx; simp [b64encode] at hx

theorem result_head_mismatch (cs : List Char) :
    dropLead (lbC :: quC :: "result".toList ++ [quC, ':', quC])
      (lbC :: quC :: "error".toList ++ cs) = none := by
  have hr : "result".toList = ['r', 'e', 's', 'u', 'l', 't'] := rfl
  have he : "error".toList = ['e', 'r', 'r', 'o', 'r'] := rfl
  have hne : ('e' : Char) ≠ 'r' := by decide
  rw [hr, he]
  simp [dropLead, hne]

theorem decodeAck_encodeAck_result (bytes : List Nat) (h : ∀ x ∈ bytes, x < 256) :
    decodeAck (encodeAck (.Result bytes)) = some (.Result bytes) := by
  unfold decodeAck encodeAck decodeAckChars
  have h1 : (String.mk (encodeAckChars (.Result bytes))).data =
      (lbC :: quC :: "result".toList ++ [quC, ':', quC]) ++
        (b64encode bytes ++ [quC, rbC]) := by
    simp [encodeAckChars]
  rw [h1, dropLead_append]
  simp [rawStringBody_append _ _ (b64encode_ne_quC bytes), b64_round_trip bytes h]

theorem decodeAck_encodeAck_error (msg : String) :
    decodeAck (encodeAck (.Error msg)) = some (.Error msg) := by
  unfold decodeAck encodeAck decodeAckChars
  have h1 : (String.mk (encodeAckChars (.Error msg))).data =
      lbC :: quC :: "error".toList ++
        (quC :: ':' :: quC :: (escapeChars msg.data ++ [quC, rbC])) := by
    simp [encodeAckChars]
  rw [h1, result_head_mismatch]
  have h2 : lbC :: quC :: "error".toList ++
      (quC :: ':' :: quC :: (escapeChars msg.data ++ [quC, rbC])) =
      (lbC :: quC :: "error".toList ++ [quC, ':', quC]) ++
        (escapeChars msg.data ++ [quC, rbC]) := by
    simp
  rw [h2, dropLead_append]
  simp [parseStringBody_escape]

/-! ## State-machine lemmas -/

theorem exBind_ok {α β ε : Type} (x : α) (f : α → Except ε β) :
    (Except.ok x : Except ε α) >>= f = f x := rfl

theorem exBind_error {α β ε : Type} (e : ε) (f : α → Except ε β) :
    (Except.error e : Except ε α) >>= f = .error e := rfl

theorem exThrow {α ε : Type} (e : ε) : (throw e : Except ε α) = .error e := rfl

theorem exPure {α ε : Type} (x : α) : (pure x : Except ε α) = .ok x := rfl

theorem setChannelState_same (st : ContractState) (key : String × String) (v : ChannelState) :
    (setChannelState st key v).channel_state key = some v := by
  simp [setChannelState]

theorem setChannelState_other (st : ContractState) (key : String × String) (v : ChannelState)
    (k : String × String) (h : k ≠ key) :
    (setChannelState st key v).channel_state k = st.channel_state k := by
  simp [setChannelState, h]

theorem setChannelState_info (st : ContractState) (key : String × String) (v : ChannelState) :
    (setChannelState st key v).channel_info = st.channel_info := rfl

theorem receive_ok (st : ContractState) (p : IbcPacket) (m : Ics20Packet) (cur : ChannelState)
    (hdata : p.data = some m)
    (hcur : st.channel_state (p.src.channel_id, m.denom) = some cur)
    (hle : m.amount ≤ cur.outstanding) :
    ibc_packet_receive st p =
      .ok (setChannelState st (p.src.channel_id, m.denom)
             { cur with outstanding := cur.outstanding - m.amount },
           { acknowledgement := ack_success
             messages := [send_amount (Amount.from_parts m.denom m.amount) m.receiver]
             attributes := [⟨"action", "receive"⟩] }) := by
  unfold ibc_packet_receive updateChannelState
  rw [hdata]
  simp [hcur, subU128, hle, exBind_ok, exBind_error, exThrow, exPure, Except.map]

theorem receive_no_decode (st : ContractState) (p : IbcPacket) (hdata : p.data = none) :
    ibc_packet_receive st p = .error (.Std (.parseErr "invalid Ics20Packet")) := by
  unfold ibc_packet_receive
  rw [hdata]
  simp [exBind_error, exThrow]

theorem receive_no_entry (st : ContractState) (p : IbcPacket) (m : Ics20Packet)
    (hdata : p.data = some m)
    (hnone : st.channel_state (p.src.channel_id, m.denom) = none) :
    ibc_packet_receive st p = .error .InsufficientFunds := by
  unfold ibc_packet_receive updateChannelState
  rw [hdata]
  simp [hnone, exBind_ok, exBind_error, exThrow, exPure]

theorem receive_underflow (st : ContractState) (p : IbcPacket) (m : Ics20Packet)
    (cur : ChannelState) (hdata : p.data = some m)
    (hcur : st.channel_state (p.src.channel_id, m.denom) = some cur)
    (hlt : cur.outstanding < m.amount) :
    ibc_packet_receive st p = .error (.Std (.underflow cur.outstanding m.amount)) := by
  have hnle : ¬ m.amount ≤ cur.outstanding := by omega
  unfold ibc_packet_receive updateChannelState
  rw [hdata]
  simp [hcur, subU128, hnle, exBind_ok, exBind_error, exThrow, exPure]

theorem receive_ok_inv (st : ContractState) (p : IbcPacket) (st' : ContractState)
    (r : IbcReceiveResponse) (h : ibc_packet_receive st p = .ok (st', r)) :
    ∃ m cur, p.data = some m ∧
      st.channel_state (p.src.channel_id, m.denom) = some cur ∧
      m.amount ≤ cur.outstanding ∧
      st' = setChannelState st (p.src.channel_id, m.denom)
        { cur with outstanding := cur.outstanding - m.amount } := by
  cases hdata : p.data with
  | none =>
    rw [receive_no_decode st p hdata] at h
    exact absurd h (by simp)
  | some m =>
    cases hcur : st.channel_state (p.src.channel_id, m.denom) with
    | none =>
      rw [receive_no_entry st p m hdata hcur] at h
      exact absurd h (by simp)
    | some cur =>
      by_cases hle : m.amount ≤ cur.outstanding
      · rw [receive_ok st p m cur hdata hcur hle] at h
        simp only [Except.ok.injEq, Prod.mk.injEq] at h
        exact ⟨m, cur, rfl, hcur, hle, h.1.symm⟩
      · rw [receive_underflow st p m cur hdata hcur (by omega)] at h
        exact absurd h (by simp)

theorem success_ok (st : ContractState) (p : IbcPacket) (m : Ics20Packet)
    (hdata : p.data = some m)
    (ho : ((st.channel_state (p.src.channel_id, m.denom)).getD ⟨0, 0⟩).outstanding + m.amount <
      UINT128_MOD)
    (ht : ((st.channel_state (p.src.channel_id, m.denom)).getD ⟨0, 0⟩).total_sent + m.amount <
      UINT128_MOD) :
    on_packet_success st p =
      .ok (setChannelState st (p.src.channel_id, m.denom)
             ⟨((st.channel_state (p.src.channel_id, m.denom)).getD ⟨0, 0⟩).outstanding + m.amount,
              ((st.channel_state (p.src.channel_id, m.denom)).getD ⟨0, 0⟩).total_sent + m.amount⟩,
           IbcBasicResponse.default) := by
  unfold on_packet_success updateChannelState
  rw [hdata]
  simp [addU128, ho, ht, exBind_ok, exBind_error, exThrow, exPure, Except.map]

theorem success_no_decode (st : ContractState) (p : IbcPacket) (hdata : p.data = none) :
    on_packet_success st p = .error (.Std (.parseErr "invalid Ics20Packet")) := by
  unfold on_packet_success
  rw [hdata]
  simp [exBind_error, exThrow]

theorem success_overflow (st : ContractState) (p : IbcPacket) (m : Ics20Packet)
    (hdata : p.data = some m)
    (hov : ¬ ((st.channel_state (p.src.channel_id, m.denom)).getD ⟨0, 0⟩).outstanding + m.amount <
        UINT128_MOD ∨
      ¬ ((st.channel_state (p.src.channel_id, m.denom)).getD ⟨0, 0⟩).total_sent + m.amount <
        UINT128_MOD) :
    on_packet_success st p = .error (.Panicked "u128 overflow") := by
  unfold on_packet_success updateChannelState
  rw [hdata]
  rcases hov with hov | hov
  · simp [addU128, hov, exBind_ok, exBind_error, exThrow, exPure, Except.map]
  · by_cases ho : ((st.channel_state (p.src.channel_id, m.denom)).getD ⟨0, 0⟩).outstanding +
        m.amount < UINT128_MOD <;>
      simp [addU128, ho, hov, exBind_ok, exBind_error, exThrow, exPure, Except.map]

theorem success_ok_inv (st : ContractState) (p : IbcPacket) (st' : ContractState)
    (r : IbcBasicResponse) (h : on_packet_success st p = .ok (st', r)) :
    ∃ m, p.data = some m ∧
      st' = setChannelState st (p.src.channel_id, m.denom)
        ⟨((st.channel_state (p.src.channel_id, m.denom)).getD ⟨0, 0⟩).outstanding + m.amount,
         ((st.channel_state (p.src.channel_id, m.denom)).getD ⟨0, 0⟩).total_sent + m.amount⟩ := by
  cases hdata : p.data with
  | none =>
    rw [success_no_decode st p hdata] at h
    exact absurd h (by simp)
  | some m =>
    by_cases ho : ((st.channel_state (p.src.channel_id, m.denom)).getD ⟨0, 0⟩).outstanding +
        m.amount < UINT128_MOD
    · by_cases ht : ((st.channel_state (p.src.channel_id, m.denom)).getD ⟨0, 0⟩).total_sent +
          m.amount < UINT128_MOD
      · rw [success_ok st p m hdata ho ht] at h
        simp only [Except.ok.injEq, Prod.mk.injEq] at h
        exact ⟨m, rfl, h.1.symm⟩
      · rw [success_overflow st p m hdata (Or.inr ht)] at h
        exact absurd h (by simp)
    · rw [success_overflow st p m hdata (Or.inl ho)] at h
      exact absurd h (by simp)

theorem failure_ok (st : ContractState) (p : IbcPacket) (m : Ics20Packet) (err : String)
    (hdata : p.data = some m) :
    on_packet_failure st p err =
      .ok (st, { messages := [send_amount (Amount.from_parts m.denom m.amount) m.sender]
                 attributes := [⟨"ibc_error", err⟩] }) := by
  unfold on_packet_failure
  rw [hdata]
  simp [exBind_ok, exPure]

theorem failure_no_decode (st : ContractState) (p : IbcPacket) (err : String)
    (hdata : p.data = none) :
    on_packet_failure st p err = .error (.Std (.parseErr "invalid Ics20Packet")) := by
  unfold on_packet_failure
  rw [hdata]
  simp [exBind_error, exThrow]

theorem failure_ok_inv (st : ContractState) (p : IbcPacket) (err : String) (st' : ContractState)
    (r : IbcBasicResponse) (h : on_packet_failure st p err = .ok (st', r)) : st' = st := by
  cases hdata : p.data with
  | none =>
    rw [failure_no_decode st p err hdata] at h
    exact absurd h (by simp)
  | some m =>
    rw [failure_ok st p m err hdata] at h
    simp only [Except.ok.injEq, Prod.mk.injEq] at h
    exact h.1.symm

theorem ack_dispatch_result (st : ContractState) (a : IbcAcknowledgement) (rb : List Nat)
    (hdec : decodeAck a.acknowledgement = some (.Result rb)) :
    ibc_packet_ack st a = on_packet_success st a.original_packet := by
  unfold ibc_packet_ack
  rw [hdec]

theorem ack_dispatch_error (st : ContractState) (a : IbcAcknowledgement) (e : String)
    (hdec : decodeAck a.acknowledgement = some (.Error e)) :
    ibc_packet_ack st a = on_packet_failure st a.original_packet e := by
  unfold ibc_packet_ack
  rw [hdec]

theorem ack_dispatch_none (st : ContractState) (a : IbcAcknowledgement)
    (hdec : decodeAck a.acknowledgement = none) :
    ibc_packet_ack st a = .error (.Std (.parseErr "invalid Ics20Ack")) := by
  unfold ibc_packet_ack
  rw [hdec]

theorem step_receive_error (st : ContractState) (p : IbcPacket) (e : ContractError)
    (h : ibc_packet_receive st p = .error e) : step st (.receive p) = st := by
  simp only [step]
  rw [h]

theorem step_receive_ok (st : ContractState) (p : IbcPacket) (st' : ContractState)
    (r : IbcReceiveResponse) (h : ibc_packet_receive st p = .ok (st', r)) :
    step st (.receive p) = st' := by
  simp only [step]
  rw [h]

theorem step_ack_error (st : ContractState) (a : IbcAcknowledgement) (e : ContractError)
    (h : ibc_packet_ack st a = .error e) : step st (.ack a) = st := by
  simp only [step]
  rw [h]

theorem step_ack_ok (st : ContractState) (a : IbcAcknowledgement) (st' : ContractState)
    (r : IbcBasicResponse) (h : ibc_packet_ack st a = .ok (st', r)) : step st (.ack a) = st' := by
  simp only [step]
  rw [h]

theorem step_timeout (st : ContractState) (p : IbcPacket) : step st (.timeout p) = st := by
  simp only [step, ibc_packet_timeout]
  cases hdata : p.data with
  | none => rw [failure_no_decode st p "timeout" hdata]
  | some m => rw [failure_ok st p m "timeout" hdata]

theorem totalSentOf_set (st : ContractState) (key : String × String) (v : ChannelState)
    (k : String × String) :
    totalSentOf (setChannelState st key v) k =
      if k = key then v.total_sent else totalSentOf st k := by
  by_cases h : k = key <;> simp [totalSentOf, setChannelState, h]

theorem outstandingOf_set (st : ContractState) (key : String × String) (v : ChannelState)
    (k : String × String) :
    outstandingOf (setChannelState st key v) k =
      if k = key then v.outstanding else outstandingOf st k := by
  by_cases h : k = key <;> simp [outstandingOf, setChannelState, h]

theorem totalSent_step (st : ContractState) (e : Event) (key : String × String) :
    totalSentOf st key ≤ totalSentOf (step st e) key ∧
    (totalSentOf (step st e) key ≠ totalSentOf st key →
      ∃ a rb, e = .ack a ∧ decodeAck a.acknowledgement = some (.Result rb)) := by
  cases e with
  | receive p =>
    have heq : totalSentOf (step st (.receive p)) key = totalSentOf st key := by
      cases h : ibc_packet_receive st p with
      | error e => rw [step_receive_error st p e h]
      | ok v =>
        obtain ⟨st', r⟩ := v
        obtain ⟨m, cur, hdata, hcur, hle, hst'⟩ := receive_ok_inv st p st' r h
        rw [step_receive_ok st p st' r h, hst', totalSentOf_set]
        by_cases hk : key = (p.src.channel_id, m.denom)
        · simp [hk, totalSentOf, hcur]
        · simp [hk]
    exact ⟨le_of_eq heq.symm, fun hne => absurd heq hne⟩
  | timeout p =>
    rw [step_timeout]
    exact ⟨le_refl _, fun hne => absurd rfl hne⟩
  | ack a =>
    cases hdec : decodeAck a.acknowledgement with
    | none =>
      rw [step_ack_error st a _ (ack_dispatch_none st a hdec)]
      exact ⟨le_refl _, fun hne => absurd rfl hne⟩
    | some msg =>
      cases msg with
      | Error err =>
        have heq : step st (.ack a) = st := by
          have hd := ack_dispatch_error st a err hdec
          cases h : on_packet_failure st a.original_packet err with
          | error e => exact step_ack_error st a e (hd.trans h)
          | ok v =>
            obtain ⟨st', r⟩ := v
            rw [step_ack_ok st a st' r (hd.trans h)]
            exact failure_ok_inv st a.original_packet err st' r h
        rw [heq]
        exact ⟨le_refl _, fun hne => absurd rfl hne⟩
      | Result rb =>
        have hd := ack_dispatch_result st a rb hdec
        refine ⟨?_, fun _ => ⟨a, rb, rfl, hdec⟩⟩
        cases h : on_packet_success st a.original_packet with
        | error e => rw [step_ack_error st a e (hd.trans h)]
        | ok v =>
          obtain ⟨st', r⟩ := v
          obtain ⟨m, hdata, hst'⟩ := success_ok_inv st a.original_packet st' r h
          rw [step_ack_ok st a st' r (hd.trans h), hst', totalSentOf_set]
          by_cases hk : key = (a.original_packet.src.channel_id, m.denom)
          · simp only [hk, if_pos rfl]
            simp [totalSentOf]
          · simp [hk]

theorem setChannelInfo_same (st : ContractState) (info : ChannelInfo) :
    (setChannelInfo st info).channel_info info.id = some info := by
  simp [setChannelInfo]

theorem setChannelInfo_other (st : ContractState) (info : ChannelInfo) (k : String)
    (h : k ≠ info.id) : (setChannelInfo st info).channel_info k = st.channel_info k := by
  simp [setChannelInfo, h]

theorem setChannelInfo_state (st : ContractState) (info : ChannelInfo) :
    (setChannelInfo st info).channel_state = st.channel_state := rfl

theorem enforce_bad_version (ch : IbcChannel) (h : ch.version ≠ ICS20_VERSION) :
    enforce_order_and_version ch = .error (.InvalidIbcVersion ch.version) := by
  unfold enforce_order_and_version
  simp [h, exBind_error, exThrow]

theorem enforce_bad_counterparty (ch : IbcChannel) (v : String)
    (hv : ch.version = ICS20_VERSION) (hcp : ch.counterparty_version = some v)
    (hne : v ≠ ICS20_VERSION) :
    enforce_order_and_version ch = .error (.InvalidIbcVersion v) := by
  unfold enforce_order_and_version
  simp [hv, hcp, hne, checkCounterpartyVersion, exBind_ok, exBind_error, exThrow, exPure]

theorem enforce_bad_order (ch : IbcChannel) (hv : ch.version = ICS20_VERSION)
    (hcp : ch.counterparty_version = none ∨ ch.counterparty_version = some ICS20_VERSION)
    (hord : ch.order ≠ ICS20_ORDERING) :
    enforce_order_and_version ch = .error .OnlyOrderedChannel := by
  unfold enforce_order_and_version
  rcases hcp with hcp | hcp <;>
    simp [hv, hcp, hord, checkCounterpartyVersion, exBind_ok, exBind_error, exThrow, exPure]

theorem enforce_ok (ch : IbcChannel) (hv : ch.version = ICS20_VERSION)
    (hcp : ch.counterparty_version = none ∨ ch.counterparty_version = some ICS20_VERSION)
    (hord : ch.order = ICS20_ORDERING) :
    enforce_order_and_version ch = .ok () := by
  unfold enforce_order_and_version
  rcases hcp with hcp | hcp <;>
    simp [hv, hcp, hord, checkCounterpartyVersion, exBind_ok, exBind_error, exThrow, exPure]

theorem enforce_ok_inv (ch : IbcChannel) (h : enforce_order_and_version ch = .ok ()) :
    ch.version = ICS20_VERSION ∧
    (ch.counterparty_version = none ∨ ch.counterparty_version = some ICS20_VERSION) ∧
    ch.order = ICS20_ORDERING := by
  by_cases hv : ch.version = ICS20_VERSION
  · cases hcp : ch.counterparty_version with
    | none =>
      by_cases hord : ch.order = ICS20_ORDERING
      · exact ⟨hv, Or.inl rfl, hord⟩
      · rw [enforce_bad_order ch hv (Or.inl hcp) hord] at h
        exact absurd h (by simp)
    | some v =>
      by_cases hvv : v = ICS20_VERSION
      · subst hvv
        by_cases hord : ch.order = ICS20_ORDERING
        · exact ⟨hv, Or.inr rfl, hord⟩
        · rw [enforce_bad_order ch hv (Or.inr hcp) hord] at h
          exact absurd h (by simp)
      · rw [enforce_bad_counterparty ch v hv hcp hvv] at h
        exact absurd h (by simp)
  · rw [enforce_bad_version ch hv] at h
    exact absurd h (by simp)

theorem connect_ok (st : ContractState) (ch : IbcChannel)
    (h : enforce_order_and_version ch = .ok ()) :
    ibc_channel_connect st ch =
      .ok (setChannelInfo st ⟨ch.endpoint.channel_id, ch.counterparty_endpoint, ch.connection_id⟩,
           IbcBasicResponse.default) := by
  unfold ibc_channel_connect
  simp [h, exBind_ok, exBind_error, exThrow, exPure]

theorem connect_error (st : ContractState) (ch : IbcChannel) (e : ContractError)
    (h : enforce_order_and_version ch = .error e) : ibc_channel_connect st ch = .error e := by
  unfold ibc_channel_connect
  simp [h, exBind_error]

theorem open_eq_enforce (st : ContractState) (ch : IbcChannel) :
    ibc_channel_open st ch = enforce_order_and_version ch := rfl

theorem msg_send_from_parts (denom r : String) (a : Nat) :
    msgAmount (send_amount (Amount.from_parts denom a) r) = a ∧
    msgRecipient (send_amount (Amount.from_parts denom a) r) = r := by
  unfold Amount.from_parts send_amount msgAmount msgRecipient
  by_cases h : denom.startsWith "cw20:" <;> simp [h]

/-! ## The claims -/

/-- C10: `ibc_channel_close` hits `unimplemented!()` on every input, so every
invocation panics (modelled as the aborting `Panicked` outcome); the core has
no code path that returns escrowed funds on channel close. -/
theorem c10_channel_close_panics :
    ∀ st ch, ibc_channel_close st ch = .error (.Panicked "not implemented") :=
  fun _ _ => rfl

/-- C7: encode-then-decode of the acknowledgement envelope reproduces the
original value for both variants (`Result` over any byte payload, `Error`
over any message string), and the encodings match the reference vectors for
the canonical success marker and the "bad coin" error. -/
theorem c7_ack_codec_round_trip :
    (∀ bytes : List Nat, (∀ x ∈ bytes, x < 256) →
      decodeAck (encodeAck (.Result bytes)) = some (.Result bytes)) ∧
    (∀ msg : String, decodeAck (encodeAck (.Error msg)) = some (.Error msg)) ∧
    encodeAck (.Result [49]) = "\x7b\"result\":\"MQ==\"\x7d" ∧
    encodeAck (.Error "bad coin") = "\x7b\"error\":\"bad coin\"\x7d" :=
  ⟨decodeAck_encodeAck_result, decodeAck_encodeAck_error, by decide, by decide⟩

theorem c7_ack_codec_round_trip_witness :
    ((∀ x ∈ [49], x < 256) ∧
      decodeAck (encodeAck (.Result [49])) = some (.Result [49])) ∧
    decodeAck (encodeAck (.Error "bad coin")) = some (.Error "bad coin") :=
  ⟨⟨by decide, c7_ack_codec_round_trip.1 [49] (by decide)⟩,
   c7_ack_codec_round_trip.2.1 "bad coin"⟩

/-- C5 (code bug; the spec's §9 note and the source's own comment "We should
not return an error if possible, but rather an acknowledgement of failure"
state the intended soft-failure policy): a payload that fails to decode and
a receive that fails the escrow check make `ibc_packet_receive` return a
hard transport-level error instead of a successful response carrying an
`Error` acknowledgement. -/
theorem c5_receive_hard_errors :
    ibc_packet_receive sampleState badPacket =
      .error (.Std (.parseErr "invalid Ics20Packet")) ∧
    ibc_packet_receive emptyState samplePacket = .error .InsufficientFunds ∧
    ibc_packet_receive sampleState bigPacket = .error (.Std (.underflow 150 200)) :=
  ⟨receive_no_decode _ _ rfl,
   receive_no_entry _ _ ⟨"atom", 100, "S", "R"⟩ rfl rfl,
   receive_underflow _ _ ⟨"atom", 200, "S", "R"⟩ ⟨150, 0⟩ rfl (by decide) (by decide)⟩

/-- C6 counterexample: a receive whose amount exceeds an existing entry's
outstanding balance fails with the wrapped `Uint128` underflow error, not
with `InsufficientFunds`, so the two failure cases do not share an error
variant. -/
theorem c6_insufficient_variant_counterexample :
    ibc_packet_receive sampleState bigPacket = .error (.Std (.underflow 150 200)) ∧
    ibc_packet_receive sampleState bigPacket ≠ .error .InsufficientFunds := by
  have h := receive_underflow sampleState bigPacket ⟨"atom", 200, "S", "R"⟩ ⟨150, 0⟩
    rfl (by decide) (by decide)
  exact ⟨h, by rw [h]; simp⟩

/-- C6 (amended): a receive with no ledger entry fails with
`InsufficientFunds`; a receive against an existing entry whose outstanding
balance is below the amount fails with the wrapped underflow error — both
fail, but with different error variants. -/
theorem c6_insufficient_funds_errors :
    ∀ st p m, p.data = some m →
      (st.channel_state (p.src.channel_id, m.denom) = none →
        ibc_packet_receive st p = .error .InsufficientFunds) ∧
      (∀ cur, st.channel_state (p.src.channel_id, m.denom) = some cur →
        cur.outstanding < m.amount →
        ibc_packet_receive st p = .error (.Std (.underflow cur.outstanding m.amount))) :=
  fun st p m hdata =>
    ⟨fun hnone => receive_no_entry st p m hdata hnone,
     fun cur hcur hlt => receive_underflow st p m cur hdata hcur hlt⟩

theorem c6_insufficient_funds_errors_witness :
    (emptyState.channel_state ("channel-3", "atom") = none ∧
      ibc_packet_receive emptyState samplePacket = .error .InsufficientFunds) ∧
    (sampleState.channel_state ("channel-3", "atom") = some ⟨150, 0⟩ ∧ 150 < 200 ∧
      ibc_packet_receive sampleState bigPacket = .error (.Std (.underflow 150 200))) :=
  ⟨⟨rfl, (c6_insufficient_funds_errors emptyState samplePacket
      ⟨"atom", 100, "S", "R"⟩ rfl).1 rfl⟩,
   ⟨by decide, by omega,
    (c6_insufficient_funds_errors sampleState bigPacket
      ⟨"atom", 200, "S", "R"⟩ rfl).2 ⟨150, 0⟩ (by decide) (by decide)⟩⟩

/-- C4: an `Error` acknowledgement and a timeout behave identically — both
reduce to `on_packet_failure`, which emits exactly one value-transfer
instruction returning the packet's amount (of the packet's denomination) to
the original sender, attaches the failure reason (the error string, or the
literal "timeout") as an attribute, and returns the store unchanged. -/
theorem c4_failure_and_timeout :
    ∀ st p m err, p.data = some m →
      on_packet_failure st p err =
        .ok (st, { messages := [send_amount (Amount.from_parts m.denom m.amount) m.sender]
                   attributes := [⟨"ibc_error", err⟩] }) ∧
      msgAmount (send_amount (Amount.from_parts m.denom m.amount) m.sender) = m.amount ∧
      msgRecipient (send_amount (Amount.from_parts m.denom m.amount) m.sender) = m.sender ∧
      ibc_packet_timeout st p = on_packet_failure st p "timeout" ∧
      (∀ a, decodeAck a.acknowledgement = some (.Error err) → a.original_packet = p →
        ibc_packet_ack st a = on_packet_failure st p err) := by
  intro st p m err hdata
  refine ⟨failure_ok st p m err hdata, (msg_send_from_parts m.denom m.sender m.amount).1,
    (msg_send_from_parts m.denom m.sender m.amount).2, rfl, ?_⟩
  intro a hdec hp
  rw [ack_dispatch_error st a err hdec, hp]

theorem c4_failure_and_timeout_witness :
    (samplePacket.data = some ⟨"atom", 100, "S", "R"⟩) ∧
    on_packet_failure sampleState samplePacket "boom" =
      .ok (sampleState,
           { messages := [send_amount (Amount.from_parts "atom" 100) "S"]
             attributes := [⟨"ibc_error", "boom"⟩] }) ∧
    ibc_packet_timeout sampleState samplePacket =
      on_packet_failure sampleState samplePacket "timeout" := by
  have h := c4_failure_and_timeout sampleState samplePacket ⟨"atom", 100, "S", "R"⟩ "boom" rfl
  exact ⟨rfl, h.1, h.2.2.2.1⟩

/-- C2: a receive whose ledger entry covers the amount succeeds, debits
`outstanding` by exactly the amount (and nothing else in the store), emits
exactly one value-transfer instruction of the packet's amount and
denomination to the packet's receiver, and returns the success
acknowledgement. -/
theorem c2_receive_success :
    ∀ st p m cur, p.data = some m →
      st.channel_state (p.src.channel_id, m.denom) = some cur →
      m.amount ≤ cur.outstanding →
      ibc_packet_receive st p =
        .ok (setChannelState st (p.src.channel_id, m.denom)
               { cur with outstanding := cur.outstanding - m.amount },
             { acknowledgement := ack_success
               messages := [send_amount (Amount.from_parts m.denom m.amount) m.receiver]
               attributes := [⟨"action", "receive"⟩] }) ∧
      (setChannelState st (p.src.channel_id, m.denom)
          { cur with outstanding := cur.outstanding - m.amount }).channel_state
          (p.src.channel_id, m.denom) =
        some { cur with outstanding := cur.outstanding - m.amount } ∧
      (∀ k, k ≠ (p.src.channel_id, m.denom) →
        (setChannelState st (p.src.channel_id, m.denom)
            { cur with outstanding := cur.outstanding - m.amount }).channel_state k =
          st.channel_state k) ∧
      (setChannelState st (p.src.channel_id, m.denom)
          { cur with outstanding := cur.outstanding - m.amount }).channel_info =
        st.channel_info ∧
      msgAmount (send_amount (Amount.from_parts m.denom m.amount) m.receiver) = m.amount ∧
      msgRecipient (send_amount (Amount.from_parts m.denom m.amount) m.receiver) =
        m.receiver := by
  intro st p m cur hdata hcur hle
  exact ⟨receive_ok st p m cur hdata hcur hle,
    setChannelState_same st _ _,
    fun k hk => setChannelState_other st _ _ k hk,
    setChannelState_info st _ _,
    (msg_send_from_parts m.denom m.receiver m.amount).1,
    (msg_send_from_parts m.denom m.receiver m.amount).2⟩

theorem c2_receive_success_witness :
    (samplePacket.data = some ⟨"atom", 100, "S", "R"⟩ ∧
      sampleState.channel_state ("channel-3", "atom") = some ⟨150, 0⟩ ∧
      (100 : Nat) ≤ 150) ∧
    ibc_packet_receive sampleState samplePacket =
      .ok (setChannelState sampleState ("channel-3", "atom") ⟨50, 0⟩,
           { acknowledgement := ack_success
             messages := [send_amount (Amount.from_parts "atom" 100) "R"]
             attributes := [⟨"action", "receive"⟩] }) ∧
    (setChannelState sampleState ("channel-3", "atom") ⟨50, 0⟩).channel_state
      ("channel-3", "atom") = some ⟨50, 0⟩ := by
  have h := c2_receive_success sampleState samplePacket ⟨"atom", 100, "S", "R"⟩ ⟨150, 0⟩
    rfl (by decide) (by decide)
  exact ⟨⟨rfl, by decide, by decide⟩, h.1, h.2.1⟩

/-- C3: an acknowledgement carrying the `Result` variant for a sent packet
credits both `outstanding` and `total_sent` by exactly the packet's amount
for the packet's (origin channel, denom) — creating the entry from the
zero-field default when absent — and mutates nothing else in the store. -/
theorem c3_ack_success :
    ∀ st a rb m, decodeAck a.acknowledgement = some (.Result rb) →
      a.original_packet.data = some m →
      ((st.channel_state (a.original_packet.src.channel_id, m.denom)).getD
          ⟨0, 0⟩).outstanding + m.amount < UINT128_MOD →
      ((st.channel_state (a.original_packet.src.channel_id, m.denom)).getD
          ⟨0, 0⟩).total_sent + m.amount < UINT128_MOD →
      ibc_packet_ack st a =
        .ok (setChannelState st (a.original_packet.src.channel_id, m.denom)
               ⟨((st.channel_state (a.original_packet.src.channel_id, m.denom)).getD
                   ⟨0, 0⟩).outstanding + m.amount,
                ((st.channel_state (a.original_packet.src.channel_id, m.denom)).getD
                   ⟨0, 0⟩).total_sent + m.amount⟩,
             IbcBasicResponse.default) ∧
      (∀ v, (setChannelState st (a.original_packet.src.channel_id, m.denom) v).channel_state
          (a.original_packet.src.channel_id, m.denom) = some v) ∧
      (∀ v k, k ≠ (a.original_packet.src.channel_id, m.denom) →
        (setChannelState st (a.original_packet.src.channel_id, m.denom) v).channel_state k =
          st.channel_state k) ∧
      (∀ v, (setChannelState st (a.original_packet.src.channel_id, m.denom) v).channel_info =
        st.channel_info) ∧
      (st.channel_state (a.original_packet.src.channel_id, m.denom) = none →
        (setChannelState st (a.original_packet.src.channel_id, m.denom)
            ⟨((st.channel_state (a.original_packet.src.channel_id, m.denom)).getD
                ⟨0, 0⟩).outstanding + m.amount,
             ((st.channel_state (a.original_packet.src.channel_id, m.denom)).getD
                ⟨0, 0⟩).total_sent + m.amount⟩).channel_state
            (a.original_packet.src.channel_id, m.denom) =
          some ⟨m.amount, m.amount⟩) := by
  intro st a rb m hdec hdata ho ht
  refine ⟨?_, fun v => setChannelState_same st _ v,
    fun v k hk => setChannelState_other st _ v k hk,
    fun v => setChannelState_info st _ v, ?_⟩
  · rw [ack_dispatch_result st a rb hdec]
    exact success_ok st a.original_packet m hdata ho ht
  · intro hnone
    rw [setChannelState_same, hnone]
    simp

theorem c3_ack_success_witness :
    (decodeAck sampleAck.acknowledgement = some (.Result [49]) ∧
      sampleAck.original_packet.data = some ⟨"atom", 100, "S", "R"⟩ ∧
      (150 : Nat) + 100 < UINT128_MOD ∧ (0 : Nat) + 100 < UINT128_MOD) ∧
    ibc_packet_ack sampleState sampleAck =
      .ok (setChannelState sampleState ("channel-3", "atom") ⟨250, 100⟩,
           IbcBasicResponse.default) := by
  have h := c3_ack_success sampleState sampleAck [49] ⟨"atom", 100, "S", "R"⟩
    (by decide) rfl (by decide) (by decide)
  exact ⟨⟨by decide, rfl, by decide, by decide⟩, h.1⟩

/-- C1: the escrow invariant. The ledger's `outstanding` field (an unsigned
value) is non-negative after any sequence of receive/ack/timeout events; a
receive with no ledger entry, or whose amount exceeds the entry's
outstanding balance, fails and leaves the whole store (in particular that
entry) unchanged; and a receive that does succeed had a covering entry and
debits it by true (non-wrapping) subtraction, so no operation ever stores a
negative outstanding value. -/
theorem c1_outstanding_never_negative :
    (∀ st evs key, 0 ≤ (outstandingOf (runEvents st evs) key : Int)) ∧
    (∀ st p m, p.data = some m →
      (st.channel_state (p.src.channel_id, m.denom) = none ∨
        ∃ cur, st.channel_state (p.src.channel_id, m.denom) = some cur ∧
          cur.outstanding < m.amount) →
      (∃ e, ibc_packet_receive st p = .error e) ∧ step st (.receive p) = st) ∧
    (∀ st p st' r, ibc_packet_receive st p = .ok (st', r) →
      ∃ m cur, p.data = some m ∧
        st.channel_state (p.src.channel_id, m.denom) = some cur ∧
        m.amount ≤ cur.outstanding ∧
        outstandingOf st' (p.src.channel_id, m.denom) + m.amount =
          outstandingOf st (p.src.channel_id, m.denom)) := by
  refine ⟨fun st evs key => Int.natCast_nonneg _, ?_, ?_⟩
  · intro st p m hdata hins
    rcases hins with hnone | ⟨cur, hcur, hlt⟩
    · have h := receive_no_entry st p m hdata hnone
      exact ⟨⟨_, h⟩, step_receive_error st p _ h⟩
    · have h := receive_underflow st p m cur hdata hcur hlt
      exact ⟨⟨_, h⟩, step_receive_error st p _ h⟩
  · intro st p st' r h
    obtain ⟨m, cur, hdata, hcur, hle, hst'⟩ := receive_ok_inv st p st' r h
    refine ⟨m, cur, hdata, hcur, hle, ?_⟩
    rw [hst', outstandingOf_set, if_pos rfl]
    simp only [outstandingOf, hcur, Option.getD_some]
    omega

theorem c1_outstanding_never_negative_witness :
    (bigPacket.data = some ⟨"atom", 200, "S", "R"⟩ ∧
      sampleState.channel_state ("channel-3", "atom") = some ⟨150, 0⟩ ∧
      (150 : Nat) < 200) ∧
    ((∃ e, ibc_packet_receive sampleState bigPacket = .error e) ∧
      step sampleState (.receive bigPacket) = sampleState) :=
  ⟨⟨rfl, by decide, by decide⟩,
   c1_outstanding_never_negative.2.1 sampleState bigPacket ⟨"atom", 200, "S", "R"⟩ rfl
     (Or.inr ⟨⟨150, 0⟩, by decide, by decide⟩)⟩

/-- C8: the channel handshake. Open and connect fail with the
version-mismatch error whenever either side's version string differs from
"ics20-1" (regardless of the ordering mode, which is checked later); with
correct versions but non-unordered delivery they fail with the ordering
error; and connect persists a `ChannelInfo` record keyed by the local
channel id exactly when both checks pass, touching nothing else. -/
theorem c8_handshake :
    ∀ st ch,
      (ch.version ≠ ICS20_VERSION →
        ibc_channel_open st ch = .error (.InvalidIbcVersion ch.version) ∧
        ibc_channel_connect st ch = .error (.InvalidIbcVersion ch.version)) ∧
      (∀ v, ch.version = ICS20_VERSION → ch.counterparty_version = some v →
        v ≠ ICS20_VERSION →
        ibc_channel_open st ch = .error (.InvalidIbcVersion v) ∧
        ibc_channel_connect st ch = .error (.InvalidIbcVersion v)) ∧
      (ch.version = ICS20_VERSION →
        (ch.counterparty_version = none ∨ ch.counterparty_version = some ICS20_VERSION) →
        ch.order ≠ ICS20_ORDERING →
        ibc_channel_open st ch = .error .OnlyOrderedChannel ∧
        ibc_channel_connect st ch = .error .OnlyOrderedChannel) ∧
      (∀ st' r, ibc_channel_connect st ch = .ok (st', r) →
        ch.version = ICS20_VERSION ∧
        (ch.counterparty_version = none ∨ ch.counterparty_version = some ICS20_VERSION) ∧
        ch.order = ICS20_ORDERING ∧
        st'.channel_info ch.endpoint.channel_id =
          some ⟨ch.endpoint.channel_id, ch.counterparty_endpoint, ch.connection_id⟩ ∧
        (∀ k, k ≠ ch.endpoint.channel_id → st'.channel_info k = st.channel_info k) ∧
        st'.channel_state = st.channel_state) := by
  intro st ch
  refine ⟨?_, ?_, ?_, ?_⟩
  · intro h
    have he := enforce_bad_version ch h
    exact ⟨(open_eq_enforce st ch).trans he, connect_error st ch _ he⟩
  · intro v hv hcp hne
    have he := enforce_bad_counterparty ch v hv hcp hne
    exact ⟨(open_eq_enforce st ch).trans he, connect_error st ch _ he⟩
  · intro hv hcp hord
    have he := enforce_bad_order ch hv hcp hord
    exact ⟨(open_eq_enforce st ch).trans he, connect_error st ch _ he⟩
  · intro st' r hok
    cases he : enforce_order_and_version ch with
    | error e =>
      rw [connect_error st ch e he] at hok
      exact absurd hok (by simp)
    | ok u =>
      cases u
      obtain ⟨hv, hcp, hord⟩ := enforce_ok_inv ch he
      have hco := connect_ok st ch he
      rw [hco] at hok
      simp only [Except.ok.injEq, Prod.mk.injEq] at hok
      obtain ⟨hst', -⟩ := hok
      subst hst'
      exact ⟨hv, hcp, hord, setChannelInfo_same st _,
        fun k hk => setChannelInfo_other st _ k hk, setChannelInfo_state st _⟩

theorem c8_handshake_witness :
    (badVersionChannel.version ≠ ICS20_VERSION ∧
      ibc_channel_open sampleState badVersionChannel =
        .error (.InvalidIbcVersion "ics20-2")) ∧
    (orderedChannel.order ≠ ICS20_ORDERING ∧
      ibc_channel_connect sampleState orderedChannel = .error .OnlyOrderedChannel) ∧
    (ibc_channel_connect sampleState sampleChannel =
        .ok (connectedState, IbcBasicResponse.default) ∧
      connectedState.channel_info "channel-3" =
        some ⟨"channel-3", ⟨"transfer", "channel-9"⟩, "connection-2"⟩) := by
  have hconn : ibc_channel_connect sampleState sampleChannel =
      .ok (connectedState, IbcBasicResponse.default) :=
    connect_ok sampleState sampleChannel rfl
  refine ⟨⟨by decide, ((c8_handshake sampleState badVersionChannel).1 (by decide)).1⟩,
    ⟨by decide, ((c8_handshake sampleState orderedChannel).2.2.1 rfl (Or.inr rfl)
      (by decide)).2⟩,
    ⟨hconn, ?_⟩⟩
  exact ((c8_handshake sampleState sampleChannel).2.2.2 connectedState
    IbcBasicResponse.default hconn).2.2.2.1

/-- C9: `total_sent` is monotonically non-decreasing under every event of the
core (receive, ack-success, ack-error, timeout), both per step and over any
event sequence, and a step strictly changes it only when the event is an
acknowledgement decoding to the `Result` (success) variant. -/
theorem c9_total_sent_monotone :
    (∀ st e key, totalSentOf st key ≤ totalSentOf (step st e) key) ∧
    (∀ st e key, totalSentOf (step st e) key ≠ totalSentOf st key →
      ∃ a rb, e = .ack a ∧ decodeAck a.acknowledgement = some (.Result rb)) ∧
    (∀ st evs key, totalSentOf st key ≤ totalSentOf (runEvents st evs) key) := by
  refine ⟨fun st e key => (totalSent_step st e key).1,
          fun st e key => (totalSent_step st e key).2, ?_⟩
  intro st evs key
  induction evs generalizing st with
  | nil => exact le_refl _
  | cons e evs ih =>
    calc totalSentOf st key ≤ totalSentOf (step st e) key := (totalSent_step st e key).1
      _ ≤ totalSentOf (runEvents (step st e) evs) key := ih (step st e)
      _ = totalSentOf (runEvents st (e :: evs)) key := rfl

theorem c9_total_sent_monotone_witness :
    (totalSentOf (step sampleState (.ack sampleAck)) ("channel-3", "atom") ≠
      totalSentOf sampleState ("channel-3", "atom")) ∧
    (∃ a rb, (Event.ack sampleAck) = .ack a ∧
      decodeAck a.acknowledgement = some (.Result rb)) := by
  have hne : totalSentOf (step sampleState (.ack sampleAck)) ("channel-3", "atom") ≠
      totalSentOf sampleState ("channel-3", "atom") := by decide
  exact ⟨hne, c9_total_sent_monotone.2.1 sampleState (.ack sampleAck) ("channel-3", "atom") hne⟩

end Cw20Ics20
